import Mathlib

/-
A shallow embedding of `src/sigmaepsilon/plotting/mpl/parallel.py`
(package `sigmaepsilon.plotting.mpl`), together with theorems about its
range normalization, column rescaling, bezier control-point construction,
aligned-panel layout, interpolation readout and error behaviour.

Real values are modelled as rationals, so every arithmetic step of the
source is exact.  Calls into numpy/matplotlib that can raise are modelled
by `Except PErr`; the creation of the matplotlib figure is recorded by a
counter so that the order "validate before/after figure creation" is
observable in the model.
-/

namespace ParallelMpl

/-- Python exception classes that the source can raise (directly or through
numpy/matplotlib). -/
inductive PErr where
  | typeError
  | valueError
  | assertionError
  | keyError
  | indexError
deriving DecidableEq, Repr

/-- The tolerance `1e-12` of the degenerate-range guard (parallel.py line 110). -/
def eps12 : ℚ := 1 / 1000000000000

/-- The tolerance `1e-7` used by `_set_xlim` (parallel.py line 397). -/
def eps7 : ℚ := 1 / 10000000

/-- `np.min` of a 1-d array; raises ValueError (modelled as `none`) on an
empty array. -/
def npMin : List ℚ → Option ℚ
  | [] => none
  | x :: xs => some (xs.foldl min x)

/-- `np.max` of a 1-d array. -/
def npMax : List ℚ → Option ℚ
  | [] => none
  | x :: xs => some (xs.foldl max x)

/-- `np.linspace a b num` with `endpoint=True` (used at parallel.py line 160). -/
def linspace (a b : ℚ) (num : Nat) : List ℚ :=
  if num = 1 then [a]
  else (List.range num).map (fun i => a + (b - a) * (i : ℚ) / ((num : ℚ) - 1))

/-- Degenerate-range guard (parallel.py lines 108-113): if `|lo - hi| < 1e-12`
the range is replaced by `(lo - 1, hi + 1)`. -/
def degenGuard (lo hi : ℚ) : ℚ × ℚ :=
  if |lo - hi| < eps12 then (lo - 1, hi + 1) else (lo, hi)

/-- Padding of a range by `padding * (hi - lo)` on both ends
(parallel.py lines 117-119). -/
def padRange (padding lo hi : ℚ) : ℚ × ℚ :=
  (lo - (hi - lo) * padding, hi + (hi - lo) * padding)

/-- One column's padded display range: degenerate guard first, then padding,
exactly in source order (parallel.py lines 108-119). -/
def guardAndPad (padding lo hi : ℚ) : ℚ × ℚ :=
  let g := degenGuard lo hi
  padRange padding g.1 g.2

/-- The data-inferred raw range of one column, `(ys.min, ys.max)` along
axis 0 (parallel.py lines 101-102); `np.min`/`np.max` raise ValueError on a
zero-length column. -/
def colRange (c : List ℚ) : Except PErr (ℚ × ℚ) :=
  match npMin c, npMax c with
  | some lo, some hi => .ok (lo, hi)
  | _, _ => .error .valueError

/-- Raw ranges of all columns, in column order. -/
def colRanges : List (List ℚ) → Except PErr (List (ℚ × ℚ))
  | [] => .ok []
  | c :: cs => do
    let r ← colRange c
    let rs ← colRanges cs
    pure (r :: rs)

/-- Padded per-column ranges of `parallel` (lines 100-119): either inferred
from the data or taken from the explicit `ranges` argument, then passed
through the degenerate guard and the padding step. -/
def computePaddedRanges (padding : ℚ) (rangesOpt : Option (List (ℚ × ℚ)))
    (cols : List (List ℚ)) : Except PErr (List (ℚ × ℚ)) := do
  let rs ← match rangesOpt with
    | some rs => Except.ok rs
    | none => colRanges cols
  pure (rs.map (fun r => guardAndPad padding r.1 r.2))

/-- Rescaling of the columns `1..M-1` (parallel.py line 125):
`zs[:,k] = (ys[:,k] - ymins[k]) / dys[k] * dys[0] + ymins[0]`. -/
def rescaleTail (m0 d0 : ℚ) : List ℚ → List ℚ → List (List ℚ) → List (List ℚ)
  | mk :: ms, dk :: ds, c :: cs =>
      c.map (fun y => (y - mk) / dk * d0 + m0) :: rescaleTail m0 d0 ms ds cs
  | _, _, _ => []

/-- The rescaled matrix (parallel.py lines 123-125), as a list of columns:
column 0 is kept unchanged, the remaining columns are affinely mapped into
the padded range of column 0. -/
def rescaleCols (ymins dys : List ℚ) (cols : List (List ℚ)) : List (List ℚ) :=
  match cols, ymins, dys with
  | c0 :: cs, m0 :: ms, d0 :: ds => c0 :: rescaleTail m0 d0 ms ds cs
  | _, _, _ => []

/-- Padded-range computation followed by rescaling, the value-level core of
`parallel` (lines 100-125). -/
def parallelZs (padding : ℚ) (rangesOpt : Option (List (ℚ × ℚ)))
    (cols : List (List ℚ)) : Except PErr (List (List ℚ)) := do
  let prs ← computePaddedRanges padding rangesOpt cols
  pure (rescaleCols (prs.map Prod.fst) (prs.map (fun r => r.2 - r.1)) cols)

/-- `np.repeat(row, 3)`, each entry repeated three times (parallel.py line 164). -/
def npRepeat3 (l : List ℚ) : List ℚ := l.flatMap (fun v => [v, v, v])

/-- The bezier control vertices of one record (parallel.py lines 156-166):
`zip(np.linspace(0, len(ys) - 1, len(ys) * 3 - 2), np.repeat(zs[j], 3)[1:-1])`.
Note that the source uses `len(ys)`, the number of records, not the number
of axes; `nrec` is that record count. -/
def bezierVerts (nrec : Nat) (row : List ℚ) : List (ℚ × ℚ) :=
  List.zip (linspace 0 ((nrec : ℚ) - 1) (3 * nrec - 2))
    ((npRepeat3 row).tail.dropLast)

/-- Matplotlib path-command codes used by the bezier branch. -/
inductive PathCode where
  | moveto
  | curve4
deriving DecidableEq, Repr

/-- `codes = [Path.MOVETO] + [Path.CURVE4] * (len(verts) - 1)`
(parallel.py line 168). -/
def pathCodes (nverts : Nat) : List PathCode :=
  .moveto :: List.replicate (nverts - 1) .curve4

/-- One drawn record: either the straight polyline of the linear branch or
the bezier path patch. The colour is an opaque token. -/
inductive RecordPath where
  | line (pts : List (ℚ × ℚ)) (color : Nat)
  | bezier (verts : List (ℚ × ℚ)) (codes : List PathCode) (color : Nat)
deriving DecidableEq, Repr

/-- `colors[j]`: subscripting `None` raises TypeError, an out-of-range index
raises IndexError. -/
def colorAt : Option (List Nat) → Nat → Except PErr Nat
  | none, _ => .error .typeError
  | some cs, j =>
    match cs.get? j with
    | some c => .ok c
    | none => .error .indexError

/-- The record-drawing loop of `parallel` (lines 146-171), one iteration per
record (row of `zs`), evaluating `colors[j]` in each iteration. -/
def drawLoop (bez : Bool) (colors : Option (List Nat)) (nrec nY : Nat) :
    Nat → List (List ℚ) → Except PErr (List RecordPath)
  | _, [] => .ok []
  | j, row :: rest =>
    match colorAt colors j with
    | .error e => .error e
    | .ok c =>
      let rp := if bez then
          RecordPath.bezier (bezierVerts nrec row) (pathCodes (bezierVerts nrec row).length) c
        else
          RecordPath.line (List.zip ((List.range nY).map (fun i => (i : ℚ))) row) c
      match drawLoop bez colors nrec nY (j + 1) rest with
      | .error e => .error e
      | .ok rs => .ok (rp :: rs)

/-- Rows of the (column-major) rescaled matrix: `zs[j, :]` for `j < nrec`. -/
def rowsOf (nrec : Nat) (cols : List (List ℚ)) : List (List ℚ) :=
  (List.range nrec).map (fun j => cols.map (fun c => c.getD j 0))

/-- The `data` argument of `parallel`: a dict of named columns, a numpy
array (whose rows become the columns of `ys` after the transpose at line 87,
split into the 1-d and 2-d cases), a plain iterable of columns, or an
unsupported container. -/
inductive PData where
  | dictIn (pairs : List (String × List ℚ))
  | ndarray1dIn (vals : List ℚ)
  | ndarray2dIn (cols : List (List ℚ))
  | listIn (cols : List (List ℚ))
  | badIn
deriving DecidableEq, Repr

/-- `np.dstack` over a list of 1-d columns: raises ValueError on an empty
list and on columns of mismatched lengths, otherwise keeps the columns. -/
def dstack (cols : List (List ℚ)) : Except PErr (List (List ℚ)) :=
  match cols with
  | [] => .error .valueError
  | c :: cs =>
    if cs.all (fun x => x.length = c.length) then .ok (c :: cs)
    else .error .valueError

/-- The input-reading prologue of `parallel` (lines 81-95), executed before
the figure is created: resolves labels, stacks the data into the `N x M`
matrix `ys` (kept as its list of columns) and performs the shape unpacking
of line 95. -/
def parallelReadData (data : PData) (labels : Option (List String)) :
    Except PErr (List String × List (List ℚ)) :=
  match data with
  | .dictIn pairs =>
    let lbls := match labels with
      | none => pairs.map Prod.fst
      | some ls => ls
    do
      let cols ← dstack (pairs.map Prod.snd)
      pure (lbls, cols)
  | .ndarray1dIn _ =>
    match labels with
    | none => .error .assertionError
    | some _ => .error .valueError
  | .ndarray2dIn cols =>
    match labels with
    | none => .error .assertionError
    | some ls => .ok (ls, cols)
  | .listIn cols =>
    match labels with
    | none => .error .assertionError
    | some ls => do
      let cs ← dstack cols
      pure (ls, cs)
  | .badIn => .error .typeError

/-- Result of a `parallel` call: how many matplotlib figures were created
before returning or raising, and the outcome. -/
structure PResult where
  figures : Nat
  result : Except PErr (List RecordPath)

/-- The `parallel` function (lines 28-174).  Input reading happens before
`plt.subplots` (line 98), everything else after it. -/
def parallelModel (data : PData) (labels : Option (List String)) (padding : ℚ)
    (colors : Option (List Nat)) (bez : Bool)
    (rangesOpt : Option (List (ℚ × ℚ))) : PResult :=
  match parallelReadData data labels with
  | .error e => ⟨0, .error e⟩
  | .ok (_, cols) =>
    let nrec := (cols.head?.map List.length).getD 0
    match parallelZs padding rangesOpt cols with
    | .error e => ⟨1, .error e⟩
    | .ok zs =>
      match drawLoop bez colors nrec cols.length 0 (rowsOf nrec zs) with
      | .error e => ⟨1, .error e⟩
      | .ok recs => ⟨1, .ok recs⟩

/-- The `data` argument of `aligned_parallel`: a dict of named columns, a
2-d numpy array (kept as its list of columns `data[:, i]`), or an
unsupported container. -/
inductive AData where
  | dictIn (pairs : List (String × List ℚ))
  | arrayIn (cols : List (List ℚ))
  | badIn
deriving DecidableEq, Repr

/-- `np.min(datapos), np.max(datapos)` (parallel.py line 258); ValueError on
an empty `datapos`. -/
def dataposRange (datapos : List ℚ) : Except PErr (ℚ × ℚ) :=
  match npMin datapos, npMax datapos with
  | some a, some b => .ok (a, b)
  | _, _ => .error .valueError

/-- Label resolution and data-mapping construction of `aligned_parallel`
(lines 272-279).  For a dict the keys are the default labels and the dict
itself is the mapping; for an array the mapping `{labels[i]: data[:, i]}`
is rebuilt from the resolved labels; iterating or subscripting an
unsupported container raises TypeError (at line 280-281). -/
def resolveA (data : AData) (labels : Option (List String)) :
    Except PErr (List String × List (String × List ℚ)) :=
  match data with
  | .dictIn pairs =>
    let lbls := match labels with
      | none => pairs.map Prod.fst
      | some ls => ls
    .ok (lbls, pairs)
  | .arrayIn cols =>
    let lbls := match labels with
      | none => (List.range cols.length).map toString
      | some ls => ls
    if cols.length ≤ lbls.length then .ok (lbls, List.zip lbls cols)
    else .error .indexError
  | .badIn =>
    match labels with
    | none => .error .typeError
    | some [] => .ok ([], [])
    | some (_ :: _) => .error .typeError

/-- The read loop `for lbl in labels: plotdata[lbl]["values"] = data[lbl]`
(lines 280-281); a label missing from the mapping raises KeyError. -/
def readCols (pairs : List (String × List ℚ)) : List String → Except PErr (List (List ℚ))
  | [] => .ok []
  | l :: ls =>
    match pairs.lookup l with
    | none => .error .keyError
    | some c => do
      let cs ← readCols pairs ls
      pure (c :: cs)

/-- `(np.min c).getD 0`: the minimum of a nonempty column. -/
def colMinD (c : List ℚ) : ℚ := (npMin c).getD 0

/-- `(np.max c).getD 0`: the maximum of a nonempty column. -/
def colMaxD (c : List ℚ) : ℚ := (npMax c).getD 0

/-- The per-label min/max loop (lines 284-289), attaching
`np.min(data[lbl])` and `np.max(data[lbl])` to each label/column pair; an
empty column raises ValueError. -/
def attachMinMax : List String → List (List ℚ) →
    Except PErr (List (String × List ℚ × ℚ × ℚ))
  | [], _ => .ok []
  | _, [] => .ok []
  | l :: ls, c :: cs =>
    match npMin c, npMax c with
    | some lo, some hi => do
      let rest ← attachMinMax ls cs
      pure ((l, c, lo, hi) :: rest)
    | _, _ => .error .valueError

/-- `vmin = np.min(_min); vmax = np.max(_max)` (lines 291-292); ValueError
when there are no panels. -/
def globalRange (quads : List (String × List ℚ × ℚ × ℚ)) : Except PErr (ℚ × ℚ) :=
  match npMin (quads.map (fun q => q.2.2.1)), npMax (quads.map (fun q => q.2.2.2)) with
  | some a, some b => .ok (a, b)
  | _, _ => .error .valueError

/-- The global per-panel minimum used when `sharelimits` is true. -/
def globalMin (cols : List (List ℚ)) : ℚ := (npMin (cols.map colMinD)).getD 0

/-- The global per-panel maximum used when `sharelimits` is true. -/
def globalMax (cols : List (List ℚ)) : ℚ := (npMax (cols.map colMaxD)).getD 0

/-- The `yticks` accesses of the panel-construction loop (lines 323-336):
with at least one panel, `yticks[0]` on `None` raises TypeError and on an
empty list raises IndexError; with no panels the loop body never runs. -/
def yticksCheck (yticks : Option (List ℚ)) (nPanels : Nat) : Except PErr Unit :=
  if nPanels = 0 then .ok ()
  else
    match yticks with
    | none => .error .typeError
    | some [] => .error .indexError
    | some (_ :: _) => .ok ()

/-- The horizontal range a panel uses (lines 412-415): the global range when
`sharelimits == True`, the panel's own min/max otherwise. -/
def chooseRange (sl : Bool) (gmin gmax pmin pmax : ℚ) : ℚ × ℚ :=
  if sl then (gmin, gmax) else (pmin, pmax)

/-- One panel of `aligned_parallel` as configured by `_set_xlim`
(lines 395-402): the `(vmin, vmax)` pair handed to it, whether `set_xlim`
actually ran (only when `|vmin - vmax| > 1e-7`), the tick positions
`[vmin, vmax]` and the significant-digit count of the tick labels. -/
structure APanel where
  label : String
  xlimArg : ℚ × ℚ
  xlimApplied : Bool
  xticks : List ℚ
  tickSig : Nat
deriving DecidableEq, Repr

/-- Panel configuration for one label (lines 409-421 together with
`_set_xlim`). -/
def buildPanel (sl : Bool) (gmin gmax xoff : ℚ) (lbl : String) (pmin pmax : ℚ) : APanel :=
  let r := chooseRange sl gmin gmax pmin pmax
  let voffset := (r.2 - r.1) * xoff
  { label := lbl
    xlimArg := (r.1 - voffset, r.2 + voffset)
    xlimApplied := decide (|r.1 - r.2| > eps7)
    xticks := [r.1, r.2]
    tickSig := 3 }

/-- The plotting loop of `aligned_parallel` (lines 409-424): each panel is
configured, then `axis.plot(values, datapos)` is issued, which raises
ValueError when the column length differs from `len(datapos)`.  Returns the
number of curves successfully plotted together with the outcome. -/
def plotPanels (sl : Bool) (gmin gmax xoff : ℚ) (datapos : List ℚ) :
    List (String × List ℚ × ℚ × ℚ) → Nat × Except PErr (List APanel)
  | [] => (0, .ok [])
  | (lbl, c, mn, mx) :: rest =>
    let p := buildPanel sl gmin gmax xoff lbl mn mx
    if c.length = datapos.length then
      match plotPanels sl gmin gmax xoff datapos rest with
      | (n, .ok ps) => (n + 1, .ok (p :: ps))
      | (n, .error e) => (n + 1, .error e)
    else (0, .error .valueError)

/-- Everything `aligned_parallel` does between figure creation and the
plotting loop, in source order: `np.min/np.max(datapos)` (line 258), label
resolution (272-279), the read loop (280-281), the per-label min/max loop
(284-292), and the `yticks` subscripts of the panel-construction loop
(315-345). -/
def alignedCheck (data : AData) (datapos : List ℚ) (yticks : Option (List ℚ))
    (labels : Option (List String)) :
    Except PErr (List String × List (String × List ℚ × ℚ × ℚ) × ℚ × ℚ) := do
  let _ ← dataposRange datapos
  let (lbls, mapping) ← resolveA data labels
  let cols ← readCols mapping lbls
  let quads ← attachMinMax lbls cols
  let (gmin, gmax) ← globalRange quads
  let _ ← yticksCheck yticks lbls.length
  pure (lbls, quads, gmin, gmax)

/-- Result of an `aligned_parallel` call: figures created, curves plotted,
and the outcome. -/
structure AResult where
  figures : Nat
  curves : Nat
  result : Except PErr (List APanel)

/-- Curve count and outcome of `aligned_parallel` after the figure exists. -/
def alignedCore (data : AData) (datapos : List ℚ) (yticks : Option (List ℚ))
    (labels : Option (List String)) (sharelimits : Bool) (xoffset : ℚ) :
    Nat × Except PErr (List APanel) :=
  match alignedCheck data datapos yticks labels with
  | .error e => (0, .error e)
  | .ok (_, quads, gmin, gmax) =>
    match plotPanels sharelimits gmin gmax xoffset datapos quads with
    | (n, .ok ps) => (n, .ok ps)
    | (n, .error e) => (n, .error e)

/-- The `aligned_parallel` function (lines 177-432, with `slider=False`).
`plt.figure` is its very first statement (line 253), so exactly one figure
exists no matter what happens afterwards. -/
def alignedParallelModel (data : AData) (datapos : List ℚ) (yticks : Option (List ℚ))
    (labels : Option (List String)) (sharelimits : Bool) (xoffset : ℚ) : AResult :=
  ⟨1, (alignedCore data datapos yticks labels sharelimits xoffset).1,
    (alignedCore data datapos yticks labels sharelimits xoffset).2⟩

/-- Walk of `np.interp` over the node list (increasing x-coordinates):
find the first segment whose right end is at or beyond the query and
interpolate linearly on it; past the last node the last value is held. -/
def interpSeg (x : ℚ) : List (ℚ × ℚ) → ℚ
  | (x1, y1) :: (x2, y2) :: rest =>
    if x ≤ x2 then y1 + (x - x1) * (y2 - y1) / (x2 - x1)
    else interpSeg x ((x2, y2) :: rest)
  | [(_, y1)] => y1
  | [] => 0

/-- `np.interp x xp fp` for increasing `xp` (the precondition numpy
documents): clamp below the first node, interpolate linearly in between,
clamp above the last node. -/
def npInterp (x : ℚ) (xp fp : List ℚ) : ℚ :=
  match xp, fp with
  | x1 :: xs, y1 :: ys =>
    if x < x1 then y1 else interpSeg x ((x1, y1) :: List.zip xs ys)
  | _, _ => 0

/-- `_approx_at_y` (parallel.py lines 370-374): the readout value of one
panel at vertical position `y` is `np.interp(y, locations, values)` where
`values` is the panel's plotted x-data and `locations` its y-data. -/
def approx_at_y (y : ℚ) (values locations : List ℚ) : ℚ :=
  npInterp y locations values

/-- Whether a `parallel` call finished without raising. -/
def isOkResult : Except PErr (List RecordPath) → Bool
  | .ok _ => true
  | .error _ => false

@[simp]
lemma ebind_ok {α β : Type} (a : α) (f : α → Except PErr β) :
    (Except.ok a : Except PErr α) >>= f = f a := rfl

@[simp]
lemma ebind_error {α β : Type} (e : PErr) (f : α → Except PErr β) :
    (Except.error e : Except PErr α) >>= f = Except.error e := rfl

@[simp]
lemma epure {α : Type} (a : α) : (pure a : Except PErr α) = Except.ok a := rfl

lemma npMin_of_ne_nil {l : List ℚ} (h : l ≠ []) : npMin l = some ((npMin l).getD 0) := by
  cases l with
  | nil => exact absurd rfl h
  | cons x xs => rfl

lemma npMax_of_ne_nil {l : List ℚ} (h : l ≠ []) : npMax l = some ((npMax l).getD 0) := by
  cases l with
  | nil => exact absurd rfl h
  | cons x xs => rfl

lemma colRange_ok {c : List ℚ} (h : c ≠ []) : colRange c = .ok (colMinD c, colMaxD c) := by
  cases c with
  | nil => exact absurd rfl h
  | cons x xs => rfl

lemma colRanges_ok : ∀ {cols : List (List ℚ)}, (∀ c ∈ cols, c ≠ []) →
    colRanges cols = .ok (cols.map (fun c => (colMinD c, colMaxD c)))
  | [], _ => rfl
  | c :: cs, h => by
    have hc := colRange_ok (h c (List.mem_cons_self c cs))
    have ih := colRanges_ok (fun d hd => h d (List.mem_cons_of_mem c hd))
    simp [colRanges, hc, ih]

lemma computePaddedRanges_ok (padding : ℚ) {cols : List (List ℚ)}
    (h : ∀ c ∈ cols, c ≠ []) :
    computePaddedRanges padding none cols
      = .ok (cols.map (fun c => guardAndPad padding (colMinD c) (colMaxD c))) := by
  simp [computePaddedRanges, colRanges_ok h, List.map_map, Function.comp]

lemma parallelZs_ok (padding : ℚ) {cols : List (List ℚ)} (h : ∀ c ∈ cols, c ≠ []) :
    parallelZs padding none cols
      = .ok (rescaleCols
          ((cols.map (fun c => guardAndPad padding (colMinD c) (colMaxD c))).map Prod.fst)
          ((cols.map (fun c => guardAndPad padding (colMinD c) (colMaxD c))).map
            (fun r => r.2 - r.1))
          cols) := by
  simp [parallelZs, computePaddedRanges_ok padding h]

lemma dstack_ok {cols : List (List ℚ)} {c0 : List ℚ} {cs : List (List ℚ)} {n : Nat}
    (hc : cols = c0 :: cs) (hlen : ∀ c ∈ cols, c.length = n) : dstack cols = .ok cols := by
  subst hc
  have hall : cs.all (fun x => x.length = c0.length) = true := by
    rw [List.all_eq_true]
    intro x hx
    have h1 := hlen x (List.mem_cons_of_mem c0 hx)
    have h2 := hlen c0 (List.mem_cons_self c0 cs)
    simp [h1, h2]
  simp [dstack, hall]

lemma rowsOf_length (n : Nat) (cols : List (List ℚ)) : (rowsOf n cols).length = n := by
  simp [rowsOf]

lemma rowsOf_ne_nil {n : Nat} (hn : 1 ≤ n) (cols : List (List ℚ)) : rowsOf n cols ≠ [] := by
  intro h
  have := rowsOf_length n cols
  rw [h] at this
  simp at this
  omega

lemma drawLoop_none_of_ne_nil {bez : Bool} {nrec nY j : Nat} {rows : List (List ℚ)}
    (h : rows ≠ []) : drawLoop bez none nrec nY j rows = .error .typeError := by
  cases rows with
  | nil => exact absurd rfl h
  | cons r rs => rfl

lemma drawLoop_some_ok (bez : Bool) (cs : List Nat) (nrec nY : Nat) :
    ∀ (rows : List (List ℚ)) (j : Nat), j + rows.length ≤ cs.length →
    ∃ rs, drawLoop bez (some cs) nrec nY j rows = .ok rs := by
  intro rows
  induction rows with
  | nil => exact fun j _ => ⟨[], rfl⟩
  | cons row rest ih =>
    intro j hj
    have hjlt : j < cs.length := by simp at hj; omega
    have hget : cs[j]? = some cs[j] := List.getElem?_eq_getElem hjlt
    obtain ⟨rs, hrs⟩ := ih (j + 1) (by simp at hj ⊢; omega)
    refine ⟨(if bez then
        RecordPath.bezier (bezierVerts nrec row) (pathCodes (bezierVerts nrec row).length)
          cs[j]
      else
        RecordPath.line (List.zip ((List.range nY).map (fun i => (i : ℚ))) row)
          cs[j]) :: rs, ?_⟩
    simp [drawLoop, colorAt, hget, hrs]

/-- C1: the bezier control-point sequence is claimed to have `3M - 2` vertices
on the grid `linspace(0, M - 1, 3M - 2)` for `M` axes; the source instead
uses `len(ys)`, the number of records `N`, so `zip` truncates the sequence to
`min(3N - 2, 3M - 2)` vertices.  At the spec's own example - one record
(`N = 1`) with three axes and rescaled values `[0, 1, 2]` - the code
produces the single control point `(0, 0)` instead of the claimed seven,
and a full `parallel` call on a one-record, three-axis input draws a bezier
path with exactly one control vertex. -/
theorem bezier_control_points_use_record_count :
    bezierVerts 1 [0, 1, 2] = [(0, 0)]
    ∧ (bezierVerts 1 [0, 1, 2]).length ≠ 3 * 3 - 2
    ∧ parallelModel (PData.listIn [[5], [6], [7]]) (some ["a", "b", "c"]) 0 (some [0]) true none
      = ⟨1, .ok [RecordPath.bezier [(0, 5)] [PathCode.moveto] 0]⟩ :=
  ⟨by with_unfolding_all rfl, by with_unfolding_all decide, by with_unfolding_all rfl⟩

/-- C3 counterexample: with `padding = 0` (a value the function accepts and
the spec's own end-to-end example uses) the padded range of the column
`[1, 2, 3]` is exactly `(1, 3)`, so `min_padded < data_min` fails: the
claimed strict bounds do not hold for every valid input. -/
theorem padding_zero_counterexample :
    guardAndPad 0 1 3 = (1, 3) ∧ ¬ (guardAndPad 0 1 3).1 < 1 :=
  ⟨by with_unfolding_all rfl, by with_unfolding_all decide⟩

/-- C3 (amended): the range normalizer applies the degenerate-range guard
first and the padding second (the definition of `guardAndPad`, in source
order), and for every column range `lo ≤ hi` and every positive padding
fraction the padded range strictly contains `[lo, hi]` when `lo ≠ hi`, and
has span at least `2` when `lo = hi`. -/
theorem padded_range_bounds (padding lo hi : ℚ) (hp : 0 < padding) (hlh : lo ≤ hi) :
    (lo ≠ hi → (guardAndPad padding lo hi).1 < lo ∧ hi < (guardAndPad padding lo hi).2)
    ∧ (lo = hi → 2 ≤ (guardAndPad padding lo hi).2 - (guardAndPad padding lo hi).1) := by
  have heps : (0 : ℚ) < eps12 := by norm_num [eps12]
  unfold guardAndPad degenGuard padRange
  by_cases h : |lo - hi| < eps12
  · simp only [h, if_pos]
    constructor
    · intro _
      constructor
      · nlinarith
      · nlinarith
    · intro _
      nlinarith
  · simp only [h, if_neg, not_false_iff]
    have habs : |lo - hi| = hi - lo := by
      rw [abs_sub_comm]
      exact abs_of_nonneg (by linarith)
    have hge : eps12 ≤ hi - lo := by
      rw [← habs]
      exact le_of_not_lt h
    constructor
    · intro _
      constructor
      · nlinarith
      · nlinarith
    · intro heq
      exfalso
      rw [heq] at hge
      simp at hge
      linarith

/-- C3 witness: the amended bounds hold at `padding = 1/20` on the data
range `(1, 3)`. -/
theorem padded_range_bounds_witness :
    (guardAndPad (1/20) 1 3).1 < 1 ∧ (3 : ℚ) < (guardAndPad (1/20) 1 3).2 :=
  (padded_range_bounds (1/20) 1 3 (by norm_num) (by norm_num)).1 (by norm_num)

/-- C4 counterexample: `aligned_parallel` creates its figure as its very
first statement, so a malformed (unsupported-container) input raises its
TypeError only after the figure exists - one partial figure is left behind,
contradicting the claim that no partial figure is produced for either
function. -/
theorem aligned_partial_figure_on_error :
    alignedParallelModel AData.badIn [0, 1] none none false 0
      = ⟨1, 0, .error PErr.typeError⟩
    ∧ (alignedParallelModel AData.badIn [0, 1] none none false 0).figures ≠ 0 :=
  ⟨by with_unfolding_all rfl, by with_unfolding_all decide⟩

/-- C4 (amended): `parallel` performs all its input-shape validation before
`plt.subplots`, so any read error leaves zero figures behind; but
`aligned_parallel` calls `plt.figure` unconditionally first, so every call -
including every failing one - creates exactly one figure. -/
theorem parallel_validates_before_figure :
    (∀ data labels padding colors bez rOpt e,
        parallelReadData data labels = .error e →
        parallelModel data labels padding colors bez rOpt = ⟨0, .error e⟩)
    ∧ ∀ data datapos yticks labels sl xoff,
        (alignedParallelModel data datapos yticks labels sl xoff).figures = 1 := by
  constructor
  · intro data labels padding colors bez rOpt e h
    simp [parallelModel, h]
  · intro _ _ _ _ _ _
    rfl

/-- C4 witness: an unsupported container passed to `parallel` raises
TypeError with no figure created, while `aligned_parallel` has already
created its figure on the analogous input. -/
theorem parallel_validates_before_figure_witness :
    parallelModel PData.badIn none 0 none true none = ⟨0, .error PErr.typeError⟩
    ∧ (alignedParallelModel AData.badIn [0] none none false 0).figures = 1 :=
  ⟨parallel_validates_before_figure.1 PData.badIn none 0 none true none PErr.typeError rfl,
   parallel_validates_before_figure.2 AData.badIn [0] none none false 0⟩

/-- C7 counterexample: a single-column input (`M = 1 < 2`) does not raise
ValueError: the call completes and returns a (degenerate) figure with one
drawn record per data row. -/
theorem single_axis_completes :
    parallelModel (PData.listIn [[1, 2]]) (some ["a"]) (1/20) (some [0, 0]) true none
      = ⟨1, .ok [RecordPath.bezier [(0, 1)] [PathCode.moveto] 0,
                 RecordPath.bezier [(0, 2)] [PathCode.moveto] 0]⟩ := by
  with_unfolding_all rfl

/-- C7 (amended): `parallel` performs no `M ≥ 2` validation.  An empty
column list (`M = 0`) fails with ValueError - raised by `np.dstack`, before
the figure is created - while a single-column input (`M = 1`) completes
without error whenever the colour list covers the records. -/
theorem axis_count_validation :
    (∀ labels padding colors bez rOpt,
        parallelModel (PData.listIn []) (some labels) padding colors bez rOpt
          = ⟨0, .error .valueError⟩)
    ∧ ∀ (c : List ℚ) labels padding bez (cs : List Nat),
        c ≠ [] → c.length ≤ cs.length →
        (parallelModel (PData.listIn [c]) (some labels) padding (some cs) bez none).figures = 1
        ∧ isOkResult
            (parallelModel (PData.listIn [c]) (some labels) padding (some cs) bez none).result
          = true := by
  constructor
  · intro labels padding colors bez rOpt
    rfl
  · intro c labels padding bez cs hc hlen
    have hread : parallelReadData (PData.listIn [c]) (some labels) = .ok (labels, [c]) := by
      simp [parallelReadData, @dstack_ok [c] c [] c.length rfl (by simp)]
    have hzs := @parallelZs_ok padding [c] (by simpa using hc)
    have hnrec : (([c] : List (List ℚ)).head?.map List.length).getD 0 = c.length := rfl
    obtain ⟨rs, hrs⟩ := drawLoop_some_ok bez cs c.length ([c] : List (List ℚ)).length
      (rowsOf c.length (rescaleCols
        (([c].map (fun d => guardAndPad padding (colMinD d) (colMaxD d))).map Prod.fst)
        (([c].map (fun d => guardAndPad padding (colMinD d) (colMaxD d))).map
          (fun r => r.2 - r.1)) [c])) 0
      (by simpa [rowsOf_length] using hlen)
    have : parallelModel (PData.listIn [c]) (some labels) padding (some cs) bez none
        = ⟨1, .ok rs⟩ := by
      simp only [parallelModel, hread, hnrec, hzs, hrs]
    rw [this]
    exact ⟨rfl, rfl⟩

/-- C7 witness: `M = 0` raises ValueError before the figure exists, and
`M = 1` completes without error. -/
theorem axis_count_validation_witness :
    parallelModel (PData.listIn []) (some ["a"]) 0 none true none
      = ⟨0, .error .valueError⟩
    ∧ (parallelModel (PData.listIn [[3]]) (some ["a"]) 0 (some [5]) false none).figures = 1
    ∧ isOkResult
        (parallelModel (PData.listIn [[3]]) (some ["a"]) 0 (some [5]) false none).result
      = true := by
  refine ⟨axis_count_validation.1 ["a"] 0 none true none, ?_, ?_⟩
  · exact (axis_count_validation.2 [3] ["a"] 0 false [5] (by simp) (by simp)).1
  · exact (axis_count_validation.2 [3] ["a"] 0 false [5] (by simp) (by simp)).2

/-- C9: when the optional `colors` argument is omitted (`colors = None`) and
there is at least one record, the drawing loop subscripts `colors[j]` and
raises TypeError, in both the linear and the bezier branch, after the figure
has been created. -/
theorem colors_none_raises (cols : List (List ℚ)) (labels : List String) (padding : ℚ)
    (bez : Bool) (nrec : Nat) (hc : cols ≠ []) (hn : 1 ≤ nrec)
    (hlen : ∀ c ∈ cols, c.length = nrec) :
    parallelModel (PData.listIn cols) (some labels) padding none bez none
      = ⟨1, .error .typeError⟩ := by
  obtain ⟨c0, cs, rfl⟩ : ∃ c0 cs, cols = c0 :: cs := by
    cases cols with
    | nil => exact absurd rfl hc
    | cons c0 cs => exact ⟨c0, cs, rfl⟩
  have hread : parallelReadData (PData.listIn (c0 :: cs)) (some labels)
      = .ok (labels, c0 :: cs) := by
    simp [parallelReadData, @dstack_ok (c0 :: cs) c0 cs nrec rfl hlen]
  have hne : ∀ c ∈ c0 :: cs, c ≠ [] := by
    intro c hcm hnil
    have := hlen c hcm
    rw [hnil] at this
    simp at this
    omega
  have hzs := parallelZs_ok padding hne
  have hnrec : (((c0 :: cs) : List (List ℚ)).head?.map List.length).getD 0 = nrec := by
    simp [hlen c0 (List.mem_cons_self c0 cs)]
  have hdraw := @drawLoop_none_of_ne_nil bez nrec ((c0 :: cs) : List (List ℚ)).length 0
    (rowsOf nrec (rescaleCols
      (((c0 :: cs).map (fun d => guardAndPad padding (colMinD d) (colMaxD d))).map Prod.fst)
      (((c0 :: cs).map (fun d => guardAndPad padding (colMinD d) (colMaxD d))).map
        (fun r => r.2 - r.1)) (c0 :: cs)))
    (rowsOf_ne_nil hn (rescaleCols
      (((c0 :: cs).map (fun d => guardAndPad padding (colMinD d) (colMaxD d))).map Prod.fst)
      (((c0 :: cs).map (fun d => guardAndPad padding (colMinD d) (colMaxD d))).map
        (fun r => r.2 - r.1)) (c0 :: cs)))
  simp only [parallelModel, hread, hnrec, hzs, hdraw]

/-- C9 witness: omitting `colors` with two one-entry columns raises
TypeError in bezier mode. -/
theorem colors_none_raises_witness :
    parallelModel (PData.listIn [[1], [2]]) (some ["a", "b"]) (1/20) none true none
      = ⟨1, .error .typeError⟩ :=
  colors_none_raises [[1], [2]] ["a", "b"] (1/20) true 1 (by simp) le_rfl
    (by intro c hcm; fin_cases hcm <;> rfl)

lemma rescaleTail_getElem (m0 d0 : ℚ) :
    ∀ (ms ds : List ℚ) (cs : List (List ℚ)) (k : Nat)
      (hm : k < ms.length) (hd : k < ds.length) (hc : k < cs.length),
      (rescaleTail m0 d0 ms ds cs)[k]?
        = some (cs[k].map (fun y => (y - ms[k]) / ds[k] * d0 + m0))
  | _ :: _, _ :: _, _ :: _, 0, _, _, _ => by simp [rescaleTail]
  | mk :: ms', dk :: ds', c :: cs', k + 1, hm, hd, hc => by
    simpa [rescaleTail] using rescaleTail_getElem m0 d0 ms' ds' cs' k
      (by simpa using hm) (by simpa using hd) (by simpa using hc)
  | [], _, _, _, hm, _, _ => absurd hm (by simp)
  | _ :: _, [], _, _, _, hd, _ => absurd hd (by simp)
  | _ :: _, _ :: _, [], _, _, _, hc => absurd hc (by simp)

/-- C2: the rescaled matrix computed by `parallel` leaves column 0 unchanged
and maps every column `k ≥ 1` affinely by
`z[:,k] = (y[:,k] - min_k) / (max_k - min_k) * (max_0 - min_0) + min_0`,
where `(min_k, max_k)` are the padded per-column ranges. -/
theorem rescaled_matrix_affine (padding : ℚ) (rOpt : Option (List (ℚ × ℚ)))
    (cols zs : List (List ℚ)) (prs : List (ℚ × ℚ))
    (hpr : computePaddedRanges padding rOpt cols = .ok prs)
    (hzs : parallelZs padding rOpt cols = .ok zs)
    (hlen : prs.length = cols.length) :
    (∀ c0 cs0, cols = c0 :: cs0 → zs[0]? = some c0)
    ∧ ∀ (k i : Nat) (hk0 : 0 < k) (hkc : k < cols.length) (hkp : k < prs.length)
        (h0p : 0 < prs.length) (hi : i < cols[k].length),
        zs[k]?.bind (fun col => col[i]?)
          = some ((cols[k][i] - prs[k].1) / (prs[k].2 - prs[k].1)
              * (prs[0].2 - prs[0].1) + prs[0].1) := by
  have hz : zs = rescaleCols (prs.map Prod.fst) (prs.map (fun r => r.2 - r.1)) cols := by
    simp [parallelZs, hpr] at hzs
    exact hzs.symm
  constructor
  · intro c0 cs0 hcols
    subst hcols
    obtain ⟨p, ps, rfl⟩ : ∃ p ps, prs = p :: ps := by
      cases prs with
      | nil => simp at hlen
      | cons p ps => exact ⟨p, ps, rfl⟩
    rw [hz]
    simp [rescaleCols]
  · intro k i hk0 hkc hkp h0p hi
    obtain ⟨k', rfl⟩ : ∃ k', k = k' + 1 := by
      cases k with
      | zero => omega
      | succ k' => exact ⟨k', rfl⟩
    obtain ⟨c0, cs0, rfl⟩ : ∃ c0 cs0, cols = c0 :: cs0 := by
      cases cols with
      | nil => simp at hkc
      | cons c0 cs0 => exact ⟨c0, cs0, rfl⟩
    obtain ⟨p, ps, rfl⟩ : ∃ p ps, prs = p :: ps := by
      cases prs with
      | nil => simp at hkp
      | cons p ps => exact ⟨p, ps, rfl⟩
    have hkps : k' < ps.length := by simpa using hkp
    have hkcs : k' < cs0.length := by simpa using hkc
    have hi' : i < cs0[k'].length := by simpa using hi
    rw [hz]
    simp only [List.map_cons, rescaleCols, List.getElem?_cons_succ]
    rw [rescaleTail_getElem p.1 (p.2 - p.1) (ps.map Prod.fst)
      (ps.map (fun r => r.2 - r.1)) cs0 k' (by simpa using hkps) (by simpa using hkps) hkcs]
    simp only [Option.some_bind, List.getElem?_map]
    rw [List.getElem?_eq_getElem hi']
    simp [List.getElem_cons_succ, List.getElem_map, hkps]

/-- C2 witness: for columns `[[1,2,3],[4,5,6]]` with padding 0 the padded
ranges are `[(1,3),(4,6)]` and the rescaled matrix is `[[1,2,3],[1,2,3]]`;
in particular the second column's value 5 rescales to 2. -/
theorem rescaled_matrix_affine_witness :
    computePaddedRanges 0 none [[1, 2, 3], [4, 5, 6]] = .ok [(1, 3), (4, 6)]
    ∧ parallelZs 0 none [[1, 2, 3], [4, 5, 6]] = .ok [[1, 2, 3], [1, 2, 3]]
    ∧ ([[1, 2, 3], [1, 2, 3]] : List (List ℚ))[1]?.bind (fun col => col[1]?) = some 2 := by
  refine ⟨by with_unfolding_all rfl, by with_unfolding_all rfl, ?_⟩
  have h := (rescaled_matrix_affine 0 none [[1, 2, 3], [4, 5, 6]] [[1, 2, 3], [1, 2, 3]]
      [(1, 3), (4, 6)] (by with_unfolding_all rfl) (by with_unfolding_all rfl) rfl).2
      1 1 (by norm_num) (by norm_num) (by norm_num) (by norm_num) (by decide)
  rw [h]
  with_unfolding_all rfl

lemma chain'_getElem_lt {l : List ℚ} (h : List.Chain' (· < ·) l) {i j : Nat}
    (hij : i < j) (hj : j < l.length) : l[i] < l[j] := by
  have hp := List.chain'_iff_pairwise.mp h
  have := List.pairwise_iff_get.mp hp ⟨i, lt_trans hij hj⟩ ⟨j, hj⟩ hij
  simpa using this

lemma interpSeg_node : ∀ (ls vs : List ℚ) (i : Nat)
    (hc : List.Chain' (· < ·) ls) (hi : i < ls.length) (hiv : i < vs.length),
    interpSeg ls[i] (List.zip ls vs) = vs[i]
  | [], _, i, _, hi, _ => absurd hi (by simp)
  | _ :: _, [], i, _, _, hiv => absurd hiv (by simp)
  | a :: ls', v :: vs', 0, hc, hi, hiv => by
    cases ls' with
    | nil => simp [interpSeg]
    | cons b ls'' =>
      cases vs' with
      | nil => simp [interpSeg]
      | cons w vs'' =>
        have hab : a < b := (List.chain'_cons.mp hc).1
        simp [interpSeg, le_of_lt hab]
  | a :: ls', v :: vs', i + 1, hc, hi, hiv => by
    cases ls' with
    | nil => simp at hi
    | cons b ls'' =>
      cases vs' with
      | nil => simp at hiv
      | cons w vs'' =>
        have hab : a < b := (List.chain'_cons.mp hc).1
        have hcb : List.Chain' (· < ·) (b :: ls'') := (List.chain'_cons.mp hc).2
        have hi' : i < (b :: ls'').length := by simpa using hi
        have hiv' : i < (w :: vs'').length := by simpa using hiv
        cases i with
        | zero =>
          have hba : b - a ≠ 0 := sub_ne_zero.mpr (ne_of_gt hab)
          simp only [List.zip_cons_cons, interpSeg, List.getElem_cons_succ,
            List.getElem_cons_zero, le_refl, if_pos]
          field_simp
        | succ i' =>
          have hx : b < (b :: ls'')[i' + 1] := chain'_getElem_lt hcb (Nat.succ_pos i') hi'
          have hnot : ¬ ((a :: b :: ls'')[i' + 1 + 1] ≤ b) := by
            simpa using not_le.mpr hx
          have ih := interpSeg_node (b :: ls'') (w :: vs'') (i' + 1) hcb hi' hiv'
          simp only [List.zip_cons_cons, interpSeg, List.getElem_cons_succ] at ih ⊢
          rw [if_neg (by simpa using hnot)]
          exact ih

/-- C8: for a panel whose plotted positions are strictly increasing, the
interactive readout `_approx_at_y` evaluated at a query position equal to
one of the recorded positions returns exactly that record's value (the
model's rational arithmetic is exact, so "within floating-point tolerance"
holds with zero error). -/
theorem readout_exact_at_node (values locations : List ℚ)
    (hmono : List.Chain' (· < ·) locations)
    (i : Nat) (hil : i < locations.length) (hiv : i < values.length) :
    approx_at_y locations[i] values locations = values[i] := by
  obtain ⟨l0, ls', rfl⟩ : ∃ l0 ls', locations = l0 :: ls' := by
    cases locations with
    | nil => simp at hil
    | cons l0 ls' => exact ⟨l0, ls', rfl⟩
  obtain ⟨v0, vs', rfl⟩ : ∃ v0 vs', values = v0 :: vs' := by
    cases values with
    | nil => simp at hiv
    | cons v0 vs' => exact ⟨v0, vs', rfl⟩
  have hnotlt : ¬ ((l0 :: ls')[i] < l0) := by
    cases i with
    | zero => simp
    | succ i' =>
      exact not_lt.mpr (le_of_lt (chain'_getElem_lt hmono (Nat.succ_pos i') hil))
  have hseg := interpSeg_node (l0 :: ls') (v0 :: vs') i hmono hil hiv
  simpa [approx_at_y, npInterp, hnotlt] using hseg

/-- C8 witness: with positions `[0,1,2]` and values `[10,20,30]`, the
readout at query position 1 returns 20. -/
theorem readout_exact_at_node_witness :
    approx_at_y 1 [10, 20, 30] [0, 1, 2] = 20 := by
  have h := readout_exact_at_node [10, 20, 30] [0, 1, 2]
    (by norm_num [List.chain'_cons]) 1 (by decide) (by decide)
  exact h

/-- The record stored for one label by the min/max loop: the label, its
column, and the column's min and max. -/
def quadOf (l : String) (c : List ℚ) : String × List ℚ × ℚ × ℚ :=
  (l, c, colMinD c, colMaxD c)

lemma readCols_length {pairs : List (String × List ℚ)} :
    ∀ {lbls : List String} {cols : List (List ℚ)},
    readCols pairs lbls = .ok cols → cols.length = lbls.length
  | [], cols, h => by
    simp only [readCols] at h
    cases h
    rfl
  | l :: ls, cols, h => by
    simp only [readCols] at h
    cases hl : pairs.lookup l with
    | none => rw [hl] at h; cases h
    | some c =>
      rw [hl] at h
      cases hr : readCols pairs ls with
      | error e => rw [hr] at h; cases h
      | ok cs =>
        rw [hr] at h
        simp at h
        rw [← h]
        simpa using readCols_length hr

lemma readCols_keyError {pairs : List (String × List ℚ)} {lbl : String} :
    ∀ {lbls : List String}, lbl ∈ lbls → pairs.lookup lbl = none →
    readCols pairs lbls = .error .keyError
  | [], h, _ => absurd h (by simp)
  | l :: ls, h, hnone => by
    cases hl : pairs.lookup l with
    | none => simp [readCols, hl]
    | some c =>
      have hmem : lbl ∈ ls := by
        rcases List.mem_cons.mp h with rfl | hm
        · rw [hl] at hnone; cases hnone
        · exact hm
      simp [readCols, hl, readCols_keyError hmem hnone]

lemma attachMinMax_ok : ∀ (lbls : List String) (cols : List (List ℚ)),
    (∀ c ∈ cols, c ≠ []) →
    attachMinMax lbls cols = .ok (List.zipWith quadOf lbls cols)
  | [], cols, _ => by cases cols <;> rfl
  | _ :: _, [], _ => rfl
  | l :: ls, c :: cs, h => by
    obtain ⟨x, xs, rfl⟩ : ∃ x xs, c = x :: xs := by
      cases c with
      | nil => exact absurd rfl (h [] (List.mem_cons_self [] cs))
      | cons x xs => exact ⟨x, xs, rfl⟩
    have ih := attachMinMax_ok ls cs (fun d hd => h d (List.mem_cons_of_mem _ hd))
    simp [attachMinMax, ih, quadOf, colMinD, colMaxD, npMin, npMax]

lemma quads_map_min : ∀ (lbls : List String) (cols : List (List ℚ)),
    lbls.length = cols.length →
    (List.zipWith quadOf lbls cols).map (fun q => q.2.2.1) = cols.map colMinD
  | [], [], _ => rfl
  | [], _ :: _, h => by simp at h
  | _ :: _, [], h => by simp at h
  | l :: ls, c :: cs, h => by
    simp only [List.zipWith_cons_cons, List.map_cons, quadOf]
    rw [quads_map_min ls cs (by simpa using h)]

lemma quads_map_max : ∀ (lbls : List String) (cols : List (List ℚ)),
    lbls.length = cols.length →
    (List.zipWith quadOf lbls cols).map (fun q => q.2.2.2) = cols.map colMaxD
  | [], [], _ => rfl
  | [], _ :: _, h => by simp at h
  | _ :: _, [], h => by simp at h
  | l :: ls, c :: cs, h => by
    simp only [List.zipWith_cons_cons, List.map_cons, quadOf]
    rw [quads_map_max ls cs (by simpa using h)]

lemma quad_mem_col : ∀ (lbls : List String) (cols : List (List ℚ)) (q : String × List ℚ × ℚ × ℚ),
    q ∈ List.zipWith quadOf lbls cols → q.2.1 ∈ cols
  | [], _, _, h => absurd h (by simp)
  | _ :: _, [], _, h => absurd h (by simp)
  | l :: ls, c :: cs, q, h => by
    rcases List.mem_cons.mp h with rfl | hm
    · exact List.mem_cons_self c cs
    · exact List.mem_cons_of_mem c (quad_mem_col ls cs q hm)

lemma col_mem_quad : ∀ (lbls : List String) (cols : List (List ℚ)) (c : List ℚ),
    lbls.length = cols.length → c ∈ cols →
    ∃ q ∈ List.zipWith quadOf lbls cols, q.2.1 = c
  | [], [], _, _, h => absurd h (by simp)
  | [], _ :: _, _, h, _ => by simp at h
  | _ :: _, [], _, h, _ => by simp at h
  | l :: ls, c0 :: cs, c, h, hm => by
    rcases List.mem_cons.mp hm with rfl | hm'
    · exact ⟨quadOf l c, List.mem_cons_self _ _, rfl⟩
    · obtain ⟨q, hq, hqc⟩ := col_mem_quad ls cs c (by simpa using h) hm'
      exact ⟨q, List.mem_cons_of_mem _ hq, hqc⟩

lemma globalRange_ok {lbls : List String} {cols : List (List ℚ)}
    (hlen : lbls.length = cols.length) (hcne : cols ≠ []) :
    globalRange (List.zipWith quadOf lbls cols) = .ok (globalMin cols, globalMax cols) := by
  have hne : cols.map colMinD ≠ [] := by simpa using hcne
  have hne2 : cols.map colMaxD ≠ [] := by simpa using hcne
  unfold globalRange
  rw [quads_map_min lbls cols hlen, quads_map_max lbls cols hlen,
    npMin_of_ne_nil hne, npMax_of_ne_nil hne2]
  rfl

lemma plotPanels_ok (sl : Bool) (gmin gmax xoff : ℚ) (datapos : List ℚ) :
    ∀ quads, (∀ q ∈ quads, q.2.1.length = datapos.length) →
    plotPanels sl gmin gmax xoff datapos quads
      = (quads.length,
          .ok (quads.map (fun q => buildPanel sl gmin gmax xoff q.1 q.2.2.1 q.2.2.2)))
  | [], _ => rfl
  | (lbl, c, mn, mx) :: rest, h => by
    have hc : c.length = datapos.length := h (lbl, c, mn, mx) (List.mem_cons_self _ _)
    have ih := plotPanels_ok sl gmin gmax xoff datapos rest
      (fun q hq => h q (List.mem_cons_of_mem _ hq))
    simp [plotPanels, hc, ih]

lemma plotPanels_mismatch (sl : Bool) (gmin gmax xoff : ℚ) (datapos : List ℚ) :
    ∀ quads, (∃ q ∈ quads, q.2.1.length ≠ datapos.length) →
    (plotPanels sl gmin gmax xoff datapos quads).2 = .error .valueError
  | [], h => by simp at h
  | (lbl, c, mn, mx) :: rest, h => by
    by_cases hc : c.length = datapos.length
    · have hrest : ∃ q ∈ rest, q.2.1.length ≠ datapos.length := by
        rcases h with ⟨q, hq, hne⟩
        rcases List.mem_cons.mp hq with rfl | hm
        · exact absurd hc hne
        · exact ⟨q, hm, hne⟩
      have ih := plotPanels_mismatch sl gmin gmax xoff datapos rest hrest
      cases hp : plotPanels sl gmin gmax xoff datapos rest with
      | mk n r =>
        rw [hp] at ih
        cases r with
        | ok ps => simp at ih
        | error e =>
          simp at ih
          subst ih
          simp [plotPanels, hc, hp]
    · simp [plotPanels, hc]

lemma alignedCheck_dict (pairs : List (String × List ℚ)) (datapos : List ℚ)
    (yticks : Option (List ℚ)) (lbls : List String) (cols : List (List ℚ))
    (hdp : datapos ≠ []) (hlbl : lbls ≠ [])
    (hread : readCols pairs lbls = .ok cols) (hne : ∀ c ∈ cols, c ≠ []) :
    alignedCheck (.dictIn pairs) datapos yticks (some lbls)
      = (yticksCheck yticks lbls.length >>= fun _ =>
          pure (lbls, List.zipWith quadOf lbls cols, globalMin cols, globalMax cols)) := by
  obtain ⟨d, ds, rfl⟩ : ∃ d ds, datapos = d :: ds := by
    cases datapos with
    | nil => exact absurd rfl hdp
    | cons d ds => exact ⟨d, ds, rfl⟩
  have hlen : lbls.length = cols.length := (readCols_length hread).symm
  have hcne : cols ≠ [] := by
    intro h
    apply hlbl
    have h0 : lbls.length = 0 := by rw [hlen, h]; rfl
    exact List.eq_nil_of_length_eq_zero h0
  simp only [alignedCheck, dataposRange, npMin, npMax, resolveA, ebind_ok, hread,
    attachMinMax_ok lbls cols hne, globalRange_ok hlen hcne]

/-- C5: for every successful `aligned_parallel` call on a dict input, every
panel's horizontal range is the global `(min, max)` over all panels when
`sharelimits` is true and the panel's own `(min, max)` otherwise, and each
panel's x-axis ticks are exactly the two endpoints of that chosen range,
formatted to 3 significant digits. -/
theorem aligned_ticks (pairs : List (String × List ℚ)) (datapos : List ℚ) (t : ℚ)
    (ts : List ℚ) (lbls : List String) (sl : Bool) (xoff : ℚ) (cols : List (List ℚ))
    (hdp : datapos ≠ []) (hlbl : lbls ≠ [])
    (hread : readCols pairs lbls = .ok cols) (hne : ∀ c ∈ cols, c ≠ [])
    (hlen : ∀ c ∈ cols, c.length = datapos.length) :
    (alignedParallelModel (.dictIn pairs) datapos (some (t :: ts)) (some lbls) sl xoff).result
      = .ok (List.zipWith (fun l c =>
          buildPanel sl (globalMin cols) (globalMax cols) xoff l (colMinD c) (colMaxD c))
          lbls cols)
    ∧ ∀ (l : String) (pmin pmax : ℚ),
        (buildPanel sl (globalMin cols) (globalMax cols) xoff l pmin pmax).xticks
          = [(chooseRange sl (globalMin cols) (globalMax cols) pmin pmax).1,
             (chooseRange sl (globalMin cols) (globalMax cols) pmin pmax).2]
        ∧ (buildPanel sl (globalMin cols) (globalMax cols) xoff l pmin pmax).tickSig = 3 := by
  constructor
  · have hcheck := alignedCheck_dict pairs datapos (some (t :: ts)) lbls cols hdp hlbl hread hne
    have hy : yticksCheck (some (t :: ts)) lbls.length = .ok () := by
      have : lbls.length ≠ 0 := by
        intro h
        exact hlbl (List.eq_nil_of_length_eq_zero h)
      simp [yticksCheck, this]
    have hquads : ∀ q ∈ List.zipWith quadOf lbls cols, q.2.1.length = datapos.length :=
      fun q hq => hlen q.2.1 (quad_mem_col lbls cols q hq)
    have hplot := plotPanels_ok sl (globalMin cols) (globalMax cols) xoff datapos
      (List.zipWith quadOf lbls cols) hquads
    simp only [alignedParallelModel, alignedCore, hcheck, hy, ebind_ok, epure, hplot]
    rw [List.map_zipWith]
    rfl
  · intro l pmin pmax
    exact ⟨rfl, rfl⟩

/-- C5 witness: panels with ranges `(0, 10)` and `(5, 20)` under
`sharelimits = true` both get x-ticks `[0, 20]` (the global min/max),
labelled to 3 significant digits. -/
theorem aligned_ticks_witness :
    (alignedParallelModel (.dictIn [("a", [0, 10]), ("b", [5, 20])]) [1, 2]
        (some [0]) (some ["a", "b"]) true 0).result
      = .ok [⟨"a", (0, 20), true, [0, 20], 3⟩, ⟨"b", (0, 20), true, [0, 20], 3⟩] := by
  have h := (aligned_ticks [("a", [0, 10]), ("b", [5, 20])] [1, 2] 0 [] ["a", "b"] true 0
      [[0, 10], [5, 20]] (by simp) (by simp) (by with_unfolding_all rfl)
      (by intro c hc; fin_cases hc <;> simp)
      (by intro c hc; fin_cases hc <;> rfl)).1
  rw [h]
  with_unfolding_all rfl

/-- C6: `aligned_parallel` fails with KeyError whenever some label of the
ordered label set is missing from the data mapping, and fails with
ValueError whenever the length of `datapos` differs from the length of a
data column (the error raised by `axis.plot(values, datapos)`). -/
theorem aligned_label_and_length_errors :
    (∀ (pairs : List (String × List ℚ)) (datapos : List ℚ) (yticks : Option (List ℚ))
        (lbls : List String) (sl : Bool) (xoff : ℚ) (lbl : String),
        datapos ≠ [] → lbl ∈ lbls → pairs.lookup lbl = none →
        (alignedParallelModel (.dictIn pairs) datapos yticks (some lbls) sl xoff).result
          = .error .keyError)
    ∧ ∀ (pairs : List (String × List ℚ)) (datapos : List ℚ) (t : ℚ) (ts : List ℚ)
        (lbls : List String) (sl : Bool) (xoff : ℚ) (cols : List (List ℚ)),
        datapos ≠ [] → readCols pairs lbls = .ok cols → (∀ c ∈ cols, c ≠ []) →
        (∃ c ∈ cols, c.length ≠ datapos.length) →
        (alignedParallelModel (.dictIn pairs) datapos (some (t :: ts)) (some lbls) sl xoff).result
          = .error .valueError := by
  constructor
  · intro pairs datapos yticks lbls sl xoff lbl hdp hmem hnone
    obtain ⟨d, ds, rfl⟩ : ∃ d ds, datapos = d :: ds := by
      cases datapos with
      | nil => exact absurd rfl hdp
      | cons d ds => exact ⟨d, ds, rfl⟩
    simp [alignedParallelModel, alignedCore, alignedCheck, dataposRange, npMin, npMax,
      resolveA, readCols_keyError hmem hnone]
  · intro pairs datapos t ts lbls sl xoff cols hdp hread hne hmm
    have hlbl : lbls ≠ [] := by
      intro h
      subst h
      simp only [readCols] at hread
      cases hread
      rcases hmm with ⟨c, hc, _⟩
      simp at hc
    have hcheck := alignedCheck_dict pairs datapos (some (t :: ts)) lbls cols hdp hlbl hread hne
    have hy : yticksCheck (some (t :: ts)) lbls.length = .ok () := by
      have : lbls.length ≠ 0 := by
        intro h
        exact hlbl (List.eq_nil_of_length_eq_zero h)
      simp [yticksCheck, this]
    have hlen : lbls.length = cols.length := (readCols_length hread).symm
    have hquads : ∃ q ∈ List.zipWith quadOf lbls cols, q.2.1.length ≠ datapos.length := by
      rcases hmm with ⟨c, hc, hcl⟩
      obtain ⟨q, hq, hqc⟩ := col_mem_quad lbls cols c hlen hc
      exact ⟨q, hq, by rw [hqc]; exact hcl⟩
    have hplot := plotPanels_mismatch sl (globalMin cols) (globalMax cols) xoff datapos
      (List.zipWith quadOf lbls cols) hquads
    cases hp : plotPanels sl (globalMin cols) (globalMax cols) xoff datapos
        (List.zipWith quadOf lbls cols) with
    | mk n r =>
      rw [hp] at hplot
      simp at hplot
      subst hplot
      simp [alignedParallelModel, alignedCore, hcheck, hy, hp]

/-- C6 witness: a label absent from the dict raises KeyError, and a column
longer than `datapos` raises ValueError. -/
theorem aligned_label_and_length_errors_witness :
    (alignedParallelModel (.dictIn [("a", [1])]) [0] none (some ["b"]) false 0).result
      = .error .keyError
    ∧ (alignedParallelModel (.dictIn [("a", [1, 2])]) [0] (some [0]) (some ["a"]) false 0).result
      = .error .valueError := by
  constructor
  · exact aligned_label_and_length_errors.1 [("a", [1])] [0] none ["b"] false 0 "b"
      (by simp) (by simp) (by with_unfolding_all rfl)
  · exact aligned_label_and_length_errors.2 [("a", [1, 2])] [0] 0 [] ["a"] false 0 [[1, 2]]
      (by simp) (by with_unfolding_all rfl) (by intro c hc; fin_cases hc <;> simp)
      ⟨[1, 2], by simp, by simp⟩

/-- C10: every `aligned_parallel` call that omits the optional `yticks`
argument and constructs at least one panel raises TypeError when
subscripting `yticks[0]` for the boundary horizontal lines, before any
panel curve is plotted (zero curves drawn). -/
theorem yticks_none_raises (pairs : List (String × List ℚ)) (datapos : List ℚ)
    (lbls : List String) (sl : Bool) (xoff : ℚ) (cols : List (List ℚ))
    (hdp : datapos ≠ []) (hlbl : lbls ≠ [])
    (hread : readCols pairs lbls = .ok cols) (hne : ∀ c ∈ cols, c ≠ []) :
    alignedParallelModel (.dictIn pairs) datapos none (some lbls) sl xoff
      = ⟨1, 0, .error .typeError⟩ := by
  have hcheck := alignedCheck_dict pairs datapos none lbls cols hdp hlbl hread hne
  have hy : yticksCheck none lbls.length = .error .typeError := by
    have : lbls.length ≠ 0 := by
      intro h
      exact hlbl (List.eq_nil_of_length_eq_zero h)
    simp [yticksCheck, this]
  simp only [alignedParallelModel, alignedCore, hcheck, hy, ebind_error]

/-- C10 witness: omitting `yticks` with one panel raises TypeError with no
curve plotted. -/
theorem yticks_none_raises_witness :
    alignedParallelModel (.dictIn [("a", [1])]) [2] none (some ["a"]) false 0
      = ⟨1, 0, .error .typeError⟩ :=
  yticks_none_raises [("a", [1])] [2] ["a"] false 0 [[1]] (by simp) (by simp)
    (by with_unfolding_all rfl) (by intro c hc; fin_cases hc <;> simp)

end ParallelMpl
